import Mathlib

/-!
Shallow embedding of the meHouseApp API core (houses.service.ts, tasks.service.ts,
tasks.schema.ts and the task controller) and proofs about its authorization and
lifecycle rules.

The persistence layer (Prisma) is modelled as an explicit database value threaded
through each operation; `prisma.$transaction` blocks become single Lean functions
returning `Except AppError DB`, so a failing operation leaves the caller with the
original database (no partial commit is representable).  Machine-level concerns
(UUID formats, ISO datetime strings) are out of the modelled scope; datetime
values are integer timestamps.
-/

/-- Decidable equality of operation results, so that witnesses can evaluate the
operations on concrete stores. -/
instance {ε α : Type} [DecidableEq ε] [DecidableEq α] : DecidableEq (Except ε α) := fun x y =>
  match x, y with
  | .error a, .error b =>
    if h : a = b then isTrue (by rw [h])
    else isFalse (by intro hc; injection hc; exact h (by assumption))
  | .error _, .ok _ => isFalse (by intro hc; exact Except.noConfusion hc)
  | .ok _, .error _ => isFalse (by intro hc; exact Except.noConfusion hc)
  | .ok a, .ok b =>
    if h : a = b then isTrue (by rw [h])
    else isFalse (by intro hc; injection hc; exact h (by assumption))

namespace MeHouse

/-- Membership role, from the Prisma Role enum (OWNER, MEMBER). -/
inductive Role where
  | OWNER
  | MEMBER
  deriving DecidableEq, Repr

/-- Task status enum from the Prisma schema (PENDING, COMPLETED). -/
inductive TaskStatus where
  | PENDING
  | COMPLETED
  deriving DecidableEq, Repr

/-- Task priority enum from the Prisma schema (LOW, MEDIUM, HIGH). -/
inductive Priority where
  | LOW
  | MEDIUM
  | HIGH
  deriving DecidableEq, Repr

/-- House row: id, name, optional description. -/
structure House where
  id : String
  name : String
  description : Option String
  deriving DecidableEq, Repr

/-- house_members row: unique on (userId, houseId) and on (displayName, houseId)
in the store; those constraints appear as hypotheses where proofs need them. -/
structure HouseMember where
  id : String
  userId : String
  houseId : String
  displayName : String
  role : Role
  deriving DecidableEq, Repr

/-- tasks row.  createdAt and the date fields are integer timestamps. -/
structure Task where
  id : String
  title : String
  description : Option String
  status : TaskStatus
  priority : Priority
  dueDate : Option Int
  completedAt : Option Int
  houseId : String
  categoryId : Option String
  createdById : String
  createdAt : Int
  deriving DecidableEq, Repr

/-- task_assignees row: unique on (taskId, houseMemberId) in the store. -/
structure TaskAssignee where
  taskId : String
  houseMemberId : String
  deriving DecidableEq, Repr

/-- categories row. -/
structure Category where
  id : String
  name : String
  houseId : String
  deriving DecidableEq, Repr

/-- The relational store consumed by the services. -/
structure DB where
  houses : List House
  members : List HouseMember
  tasks : List Task
  assignees : List TaskAssignee
  categories : List Category
  deriving DecidableEq, Repr

/-- Typed errors of shared/errors/AppError as used by the services:
NotFoundError, ForbiddenError, UnprocessableEntityError, ConflictError. -/
inductive AppError where
  | NotFound (msg : String)
  | Forbidden (msg : String)
  | UnprocessableEntity (msg : String)
  | Conflict (msg : String)
  deriving DecidableEq, Repr

/-- prisma.houseMember.findUnique on the (userId, houseId) key. -/
def findMemberByUserHouse (db : DB) (userId houseId : String) : Option HouseMember :=
  db.members.find? fun m => m.userId == userId && m.houseId == houseId

/-- prisma.houseMember.findUnique on the primary key. -/
def findMemberById (db : DB) (memberId : String) : Option HouseMember :=
  db.members.find? fun m => m.id == memberId

/-- prisma.houseMember.findMany where houseId and role OWNER. -/
def ownersOf (db : DB) (houseId : String) : List HouseMember :=
  db.members.filter fun m => m.houseId == houseId && m.role == Role.OWNER

/-- prisma.houseMember.count where houseId and role OWNER. -/
def ownerCount (db : DB) (houseId : String) : Nat :=
  (ownersOf db houseId).length

/-- Memberships of one house. -/
def membersOf (db : DB) (houseId : String) : List HouseMember :=
  db.members.filter fun m => m.houseId == houseId

/-- TaskAssignment rows of one task (the assignees include of the task queries). -/
def assigneesOf (db : DB) (taskId : String) : List TaskAssignee :=
  db.assignees.filter fun a => a.taskId == taskId

/-- HouseService.createHouse: inside one prisma.$transaction, insert the House,
then insert the creator Membership with role OWNER.  The store's uniqueness
constraints (house id, (userId, houseId), (displayName, houseId)) can make the
second insert fail, in which case the transaction rolls back whole: the error
branch exposes no intermediate state, so a house without its owner membership is
never observable. -/
def createHouse (db : DB) (userId name : String) (description : Option String)
    (displayName : String) (newHouseId newMemberId : String) : Except AppError DB :=
  if db.houses.any fun h => h.id == newHouseId then
    .error (.Conflict "house id already exists")
  else if db.members.any fun m =>
      (m.userId == userId && m.houseId == newHouseId)
      || (m.displayName == displayName && m.houseId == newHouseId) then
    .error (.Conflict "membership uniqueness violation")
  else
    let house : House := { id := newHouseId, name := name, description := description }
    let houseMember : HouseMember :=
      { id := newMemberId, userId := userId, houseId := newHouseId
        displayName := displayName, role := Role.OWNER }
    .ok { db with houses := house :: db.houses, members := houseMember :: db.members }

/-- HouseService.removeMember: NotFound when the target is not a member; when
the target holds role OWNER, count the owners of the house and refuse with
UnprocessableEntity when that count is at most 1; otherwise delete the
membership row keyed by (userId, houseId). -/
def removeMember (db : DB) (houseId targetUserId : String) : Except AppError DB :=
  match findMemberByUserHouse db targetUserId houseId with
  | none => .error (.NotFound "User is not a member of this house")
  | some targetMember =>
    if targetMember.role = Role.OWNER ∧ ownerCount db houseId ≤ 1 then
      .error (.UnprocessableEntity "Cannot remove the last owner of the house")
    else
      .ok { db with members :=
        db.members.filter fun m => !(m.userId == targetUserId && m.houseId == houseId) }

/-- HouseService.updateMemberRole: NotFound when the target is not a member; the
last-owner check fires only when the target currently holds OWNER and the new
role differs from OWNER; otherwise the row keyed by (userId, houseId) gets the
new role and the updated membership is returned. -/
def updateMemberRole (db : DB) (houseId targetUserId : String) (newRole : Role) :
    Except AppError (HouseMember × DB) :=
  match findMemberByUserHouse db targetUserId houseId with
  | none => .error (.NotFound "User is not a member of this house")
  | some targetMember =>
    if targetMember.role = Role.OWNER ∧ newRole ≠ Role.OWNER ∧ ownerCount db houseId ≤ 1 then
      .error (.UnprocessableEntity "Cannot demote the last owner of the house")
    else
      .ok ({ targetMember with role := newRole },
        { db with members := db.members.map fun m =>
            if m.userId == targetUserId && m.houseId == houseId then
              { m with role := newRole }
            else m })

/-- TaskService.getTaskById: findFirst where id and houseId, NotFound otherwise
(house scoping is part of the lookup key). -/
def getTaskById (db : DB) (taskId houseId : String) : Except AppError Task :=
  match db.tasks.find? fun t => t.id == taskId && t.houseId == houseId with
  | none => .error (.NotFound "Task not found")
  | some task => .ok task

/-- TaskService.canUserModifyTask: the creator can modify, assignees can modify,
and the function returns false otherwise.  The source comment reads "House owner
can modify (this would need to be checked at controller level)" but no role is
consulted here, and no caller performs that owner check. -/
def canUserModifyTask (db : DB) (task : Task) (currentMemberId : String) : Bool :=
  task.createdById == currentMemberId
    || (assigneesOf db task.id).any fun a => a.houseMemberId == currentMemberId

/-- prisma.houseMember.findMany where id in ids and houseId: the memberships of
the house whose ids occur in the requested assignee list. -/
def scopedMembersIn (db : DB) (ids : List String) (houseId : String) : List HouseMember :=
  db.members.filter fun m => ids.contains m.id && m.houseId == houseId

/-- Category house-scope check used by createTask and updateTask: when a
categoryId is provided, the category must exist and belong to the house. -/
def categoryScopeOk (db : DB) (categoryId : Option String) (houseId : String) : Bool :=
  match categoryId with
  | none => true
  | some cid =>
    match db.categories.find? fun c => c.id == cid with
    | none => false
    | some c => c.houseId == houseId

/-- CreateTaskInput after createTaskSchema parsing. -/
structure CreateTaskInput where
  title : String
  description : Option String
  priority : Priority
  dueDate : Option Int
  categoryId : Option String
  assigneeIds : Option (List String)
  deriving DecidableEq, Repr

/-- TaskService.createTask: verify every requested assignee id resolves to a
membership of the house (by comparing the count of matching rows with the length
of the requested list), verify the category scope, then inside one
prisma.$transaction insert the Task row and its TaskAssignment rows.  The error
branches expose no intermediate state: no partial task is observable. -/
def createTask (db : DB) (houseId createdById : String) (data : CreateTaskInput)
    (newTaskId : String) (now : Int) : Except AppError (Task × DB) :=
  let ids := data.assigneeIds.getD []
  if ids.length > 0 ∧ (scopedMembersIn db ids houseId).length ≠ ids.length then
    .error (.UnprocessableEntity "Some assignees are not members of this house")
  else if categoryScopeOk db data.categoryId houseId = false then
    .error (.UnprocessableEntity "Category does not belong to this house")
  else
    let task : Task :=
      { id := newTaskId, title := data.title, description := data.description
        status := TaskStatus.PENDING, priority := data.priority
        dueDate := data.dueDate, completedAt := none, houseId := houseId
        categoryId := data.categoryId, createdById := createdById, createdAt := now }
    .ok (task, { db with
      tasks := task :: db.tasks
      assignees :=
        (ids.map fun a => { taskId := newTaskId, houseMemberId := a }) ++ db.assignees })

/-- UpdateTaskInput after updateTaskSchema parsing: every field optional, and
(per the zod types) a present field always carries a value, never null. -/
structure UpdateTaskInput where
  title : Option String
  description : Option String
  priority : Option Priority
  dueDate : Option Int
  categoryId : Option String
  deriving DecidableEq, Repr

/-- Field merge of TaskService.updateTask's prisma update call: title is guarded
by JS truthiness (an empty string is skipped), the other fields by a
not-undefined check.  dueDate's falsy-to-null arm is unreachable because the
schema only passes valid datetime strings, which are nonempty. -/
def applyTaskUpdate (task : Task) (data : UpdateTaskInput) : Task :=
  { task with
    title :=
      match data.title with
      | some t => if t ≠ "" then t else task.title
      | none => task.title
    description :=
      match data.description with
      | some d => some d
      | none => task.description
    priority :=
      match data.priority with
      | some p => p
      | none => task.priority
    dueDate :=
      match data.dueDate with
      | some d => some d
      | none => task.dueDate
    categoryId :=
      match data.categoryId with
      | some c => some c
      | none => task.categoryId }

/-- TaskService.updateTask: load the task (scoped lookup), gate on
canUserModifyTask, revalidate the category scope when a categoryId is provided,
then apply the partial update to the row with the given id. -/
def updateTask (db : DB) (taskId houseId currentMemberId : String)
    (data : UpdateTaskInput) : Except AppError (Task × DB) :=
  match getTaskById db taskId houseId with
  | .error e => .error e
  | .ok task =>
    if canUserModifyTask db task currentMemberId = false then
      .error (.Forbidden "Only task creator, assignees, or house owner can update this task")
    else if categoryScopeOk db data.categoryId houseId = false then
      .error (.UnprocessableEntity "Category does not belong to this house")
    else
      .ok (applyTaskUpdate task data,
        { db with tasks := db.tasks.map fun t =>
            if t.id == taskId then applyTaskUpdate t data else t })

/-- TaskService.updateTaskStatus: gate on canUserModifyTask, then write the new
status, stamping completedAt with the current time on COMPLETED and clearing it
to null on PENDING (the status enum has no other value). -/
def updateTaskStatus (db : DB) (taskId houseId currentMemberId : String)
    (status : TaskStatus) (now : Int) : Except AppError (Task × DB) :=
  match getTaskById db taskId houseId with
  | .error e => .error e
  | .ok task =>
    if canUserModifyTask db task currentMemberId = false then
      .error (.Forbidden "Only task creator, assignees, or house owner can update task status")
    else
      let stamp : Option Int :=
        match status with
        | TaskStatus.COMPLETED => some now
        | TaskStatus.PENDING => none
      .ok ({ task with status := status, completedAt := stamp },
        { db with tasks := db.tasks.map fun t =>
            if t.id == taskId then { t with status := status, completedAt := stamp } else t })

/-- TaskService.updateTaskAssignees: gate on canUserModifyTask, verify the
requested ids against house scope exactly as createTask does, then inside one
prisma.$transaction delete every TaskAssignment row of the task and insert the
new set (full replace; the empty list just deletes). -/
def updateTaskAssignees (db : DB) (taskId houseId currentMemberId : String)
    (assigneeIds : List String) : Except AppError DB :=
  match getTaskById db taskId houseId with
  | .error e => .error e
  | .ok task =>
    if canUserModifyTask db task currentMemberId = false then
      .error (.Forbidden "Only task creator, assignees, or house owner can update task assignees")
    else if assigneeIds.length > 0 ∧
        (scopedMembersIn db assigneeIds houseId).length ≠ assigneeIds.length then
      .error (.UnprocessableEntity "Some assignees are not members of this house")
    else
      .ok { db with assignees :=
        (assigneeIds.map fun a => { taskId := taskId, houseMemberId := a })
          ++ db.assignees.filter fun a => !(a.taskId == taskId) }

/-- TaskService.deleteTask: load the task, look the acting membership up by id,
permit only the creator or a membership with role OWNER, then delete the task;
the TaskAssignment rows go with it through the store's on-delete cascade
(task_assignees.taskId references tasks.id ON DELETE CASCADE). -/
def deleteTask (db : DB) (taskId houseId currentMemberId : String) : Except AppError DB :=
  match getTaskById db taskId houseId with
  | .error e => .error e
  | .ok task =>
    let currentMember := findMemberById db currentMemberId
    let canDelete :=
      task.createdById == currentMemberId
        || (match currentMember with
            | some m => m.role == Role.OWNER
            | none => false)
    if canDelete = false then
      .error (.Forbidden "Only task creator or house owner can delete this task")
    else
      .ok { db with
        tasks := db.tasks.filter fun t => !(t.id == taskId)
        assignees := db.assignees.filter fun a => !(a.taskId == taskId) }

/-- TaskFilterInput after taskFilterSchema parsing. -/
structure TaskFilterInput where
  status : Option TaskStatus
  priority : Option Priority
  assignedToMe : Option Bool
  createdByMe : Option Bool
  categoryId : Option String
  overdue : Option Bool
  page : Option Nat
  limit : Option Nat
  deriving DecidableEq, Repr

/-- Rank of the Priority enum in its Prisma declaration order (LOW, MEDIUM,
HIGH); the store sorts the enum column by this order. -/
def priorityRank : Priority → Nat
  | Priority.LOW => 0
  | Priority.MEDIUM => 1
  | Priority.HIGH => 2

/-- The getHouseTasks where-clause: conjunctive optional filters.  The overdue
spread is written after the status spread in the source, so when overdue is set
its status key PENDING overwrites any requested status filter. -/
def effectiveStatusFilter (f : TaskFilterInput) : Option TaskStatus :=
  if f.overdue.getD false then some TaskStatus.PENDING else f.status

/-- One task against the getHouseTasks where-clause, for the acting membership
me resolved from the current user. -/
def taskWhere (db : DB) (houseId : String) (me : HouseMember) (f : TaskFilterInput)
    (now : Int) (t : Task) : Bool :=
  t.houseId == houseId
    && (match effectiveStatusFilter f with
        | some s => t.status == s
        | none => true)
    && (match f.priority with
        | some p => t.priority == p
        | none => true)
    && (match f.categoryId with
        | some c => t.categoryId == some c
        | none => true)
    && (if f.createdByMe.getD false then t.createdById == me.id else true)
    && (if f.overdue.getD false then
          match t.dueDate with
          | some d => d < now
          | none => false
        else true)
    && (if f.assignedToMe.getD false then
          (assigneesOf db t.id).any fun a => a.houseMemberId == me.id
        else true)

/-- The store's ORDER BY for getHouseTasks: priority descending, dueDate
ascending with nulls last, createdAt descending.  Total comparison used by the
sort below. -/
def taskBefore (a b : Task) : Bool :=
  if priorityRank b.priority < priorityRank a.priority then true
  else if priorityRank a.priority < priorityRank b.priority then false
  else
    match a.dueDate, b.dueDate with
    | some x, some y =>
      if x < y then true
      else if y < x then false
      else b.createdAt ≤ a.createdAt
    | some _, none => true
    | none, some _ => false
    | none, none => b.createdAt ≤ a.createdAt

/-- Insertion step of the sort modelling the store's ORDER BY. -/
def insertSorted (t : Task) : List Task → List Task
  | [] => [t]
  | h :: rest => if taskBefore t h then t :: h :: rest else h :: insertSorted t rest

/-- Insertion sort modelling the store's ORDER BY evaluation of the task query. -/
def sortTasks : List Task → List Task
  | [] => []
  | t :: rest => insertSorted t (sortTasks rest)

/-- Pagination block of the getHouseTasks response. -/
structure Pagination where
  page : Nat
  limit : Nat
  total : Nat
  pages : Nat
  deriving DecidableEq, Repr

/-- getHouseTasks response: the page of tasks plus the pagination block. -/
structure TaskPage where
  tasks : List Task
  pagination : Pagination
  deriving DecidableEq, Repr

/-- TaskService.getHouseTasks: resolve the caller's membership (Forbidden when
absent), filter, sort by the store's ORDER BY, then paginate offset-style with
skip = (page - 1) * limit and take = limit; total is the unpaginated count and
pages is Math.ceil(total / limit). -/
def getHouseTasks (db : DB) (houseId currentUserId : String) (f : TaskFilterInput)
    (now : Int) : Except AppError TaskPage :=
  let page := f.page.getD 1
  let limit := f.limit.getD 20
  match findMemberByUserHouse db currentUserId houseId with
  | none => .error (.Forbidden "You are not a member of this house")
  | some currentMember =>
    let filtered := db.tasks.filter (taskWhere db houseId currentMember f now)
    let sorted := sortTasks filtered
    let skip := (page - 1) * limit
    let total := filtered.length
    .ok { tasks := (sorted.drop skip).take limit
          pagination := { page := page, limit := limit, total := total
                          pages := (total + limit - 1) / limit } }

/-- taskFilterSchema page field: parseInt(val) with fallback 1 when the value
is 0 or NaN.  The raw query value is modelled as the optional integer that
parseInt yields (none both for a missing parameter and for NaN), the
string-to-number conversion being input-shape work outside the modelled
scope. -/
def parsePageParam : Option Int → Int
  | none => 1
  | some n => if n = 0 then 1 else n

/-- taskFilterSchema limit field: Math.min(parseInt(val) with fallback 20, 100):
the limit is capped at 100 and defaults to 20, with the raw query value
modelled as parseInt output as in parsePageParam. -/
def parseLimitParam : Option Int → Int
  | none => 20
  | some n => min (if n = 0 then 20 else n) 100

/-- assigneeIdsSchema (tasks.schema.ts): at most 10 assignees per task.  The
UUID format check is input-shape validation, outside the modelled scope. -/
def parseAssigneeIds (ids : List String) : Except String (List String) :=
  if ids.length > 10 then .error "Cannot assign more than 10 members to a task"
  else .ok ids

/-- Error surface of a controller endpoint: a zod validation failure or a typed
AppError raised by the service. -/
inductive ApiError where
  | validation (msg : String)
  | app (e : AppError)
  deriving DecidableEq, Repr

/-- PUT tasks/:taskId/assignees as the controller runs it: parse the body
through updateTaskAssigneesSchema, then call the service. -/
def updateTaskAssigneesEndpoint (db : DB) (taskId houseId currentMemberId : String)
    (body : List String) : Except ApiError DB :=
  match parseAssigneeIds body with
  | .error m => .error (.validation m)
  | .ok ids =>
    match updateTaskAssignees db taskId houseId currentMemberId ids with
    | .error e => .error (.app e)
    | .ok db2 => .ok db2

/-- One JSON field of a request body: absent (undefined), explicit null, or a
value.  zod's optional-without-nullable accepts absent and rejects null. -/
inductive JsonField (α : Type) where
  | absent
  | null
  | value (v : α)
  deriving DecidableEq, Repr

/-- Raw body of the update-task endpoint before updateTaskSchema parsing. -/
structure UpdateTaskBody where
  title : JsonField String
  description : JsonField String
  priority : JsonField Priority
  dueDate : JsonField Int
  categoryId : JsonField String
  deriving DecidableEq, Repr

/-- updateTaskSchema title field: optional string, min 1 and max 100 checked
before the trim transform; null is an invalid-type error (no nullable). -/
def parseTitleField : JsonField String → Except String (Option String)
  | .absent => .ok none
  | .null => .error "title: expected string, received null"
  | .value v =>
    if v.length < 1 then .error "Task title is required"
    else if v.length > 100 then .error "Task title must be at most 100 characters"
    else .ok (some v.trim)

/-- updateTaskSchema description field: optional string capped at 500 then
trimmed; null is an invalid-type error (no nullable). -/
def parseDescriptionField : JsonField String → Except String (Option String)
  | .absent => .ok none
  | .null => .error "description: expected string, received null"
  | .value v =>
    if v.length > 500 then .error "Task description must be at most 500 characters"
    else .ok (some v.trim)

/-- updateTaskSchema priority field: optional enum; null is an invalid-type
error. -/
def parsePriorityField : JsonField Priority → Except String (Option Priority)
  | .absent => .ok none
  | .null => .error "priority: expected value, received null"
  | .value v => .ok (some v)

/-- updateTaskSchema dueDate field: optional datetime string refined to lie in
the future; datetimes are modelled as integer timestamps and the format check is
outside the modelled scope; null is an invalid-type error (no nullable). -/
def parseDueDateField (now : Int) : JsonField Int → Except String (Option Int)
  | .absent => .ok none
  | .null => .error "dueDate: expected string, received null"
  | .value v => if now < v then .ok (some v) else .error "Due date must be in the future"

/-- updateTaskSchema categoryId field: optional id string; null is an
invalid-type error (no nullable); the UUID format check is outside the modelled
scope. -/
def parseCategoryIdField : JsonField String → Except String (Option String)
  | .absent => .ok none
  | .null => .error "categoryId: expected string, received null"
  | .value v => .ok (some v)

/-- updateTaskSchema.parse over a raw body: every field optional, none
nullable; the first failing field aborts the parse. -/
def parseUpdateTask (body : UpdateTaskBody) (now : Int) : Except String UpdateTaskInput :=
  match parseTitleField body.title with
  | .error e => .error e
  | .ok title =>
    match parseDescriptionField body.description with
    | .error e => .error e
    | .ok description =>
      match parsePriorityField body.priority with
      | .error e => .error e
      | .ok priority =>
        match parseDueDateField now body.dueDate with
        | .error e => .error e
        | .ok dueDate =>
          match parseCategoryIdField body.categoryId with
          | .error e => .error e
          | .ok categoryId =>
            .ok { title := title, description := description, priority := priority
                  dueDate := dueDate, categoryId := categoryId }

/-- PUT tasks/:taskId as the controller runs it: parse the body through
updateTaskSchema, then call TaskService.updateTask. -/
def updateTaskEndpoint (db : DB) (taskId houseId currentMemberId : String)
    (body : UpdateTaskBody) (now : Int) : Except ApiError (Task × DB) :=
  match parseUpdateTask body now with
  | .error m => .error (.validation m)
  | .ok data =>
    match updateTask db taskId houseId currentMemberId data with
    | .error e => .error (.app e)
    | .ok r => .ok r

/-! Concrete store fixtures used by witnesses and counterexamples: one house h1
with creator membership m1, assignee membership m2 and owner membership m3, and
one task t1 created by m1 and assigned to m2. -/

/-- Fixture house. -/
def house1 : House := { id := "h1", name := "Home", description := none }

/-- Fixture membership: creator of task t1, role MEMBER. -/
def member1 : HouseMember :=
  { id := "m1", userId := "u1", houseId := "h1", displayName := "Ana", role := Role.MEMBER }

/-- Fixture membership: assignee of task t1, role MEMBER. -/
def member2 : HouseMember :=
  { id := "m2", userId := "u2", houseId := "h1", displayName := "Bob", role := Role.MEMBER }

/-- Fixture membership: role OWNER, neither creator nor assignee of t1. -/
def member3 : HouseMember :=
  { id := "m3", userId := "u3", houseId := "h1", displayName := "Cleo", role := Role.OWNER }

/-- Fixture task, created by m1. -/
def task1 : Task :=
  { id := "t1", title := "Dishes", description := none, status := TaskStatus.PENDING
    priority := Priority.MEDIUM, dueDate := none, completedAt := none, houseId := "h1"
    categoryId := none, createdById := "m1", createdAt := 0 }

/-- Fixture store. -/
def db1 : DB :=
  { houses := [house1]
    members := [member1, member2, member3]
    tasks := [task1]
    assignees := [{ taskId := "t1", houseMemberId := "m2" }]
    categories := [] }

/-- Update-task input with no field provided. -/
def noUpdate : UpdateTaskInput :=
  { title := none, description := none, priority := none, dueDate := none, categoryId := none }

/-- Fixture task for the pagination scenario: equal priority, no due date,
createdAt increasing with the index. -/
def pagedTask (i : Nat) : Task :=
  { id := "task" ++ toString i, title := "T", description := none
    status := TaskStatus.PENDING, priority := Priority.MEDIUM, dueDate := none
    completedAt := none, houseId := "h9", categoryId := none
    createdById := "m9", createdAt := (i : Int) }

/-- Fixture store for the pagination scenario: house h9 with one member and 45
tasks. -/
def db45 : DB :=
  { houses := [{ id := "h9", name := "Big", description := none }]
    members := [{ id := "m9", userId := "u9", houseId := "h9"
                  displayName := "Zoe", role := Role.OWNER }]
    tasks := (List.range 45).map pagedTask
    assignees := []
    categories := [] }

/-- Filter input for the pagination scenario: no filters, page 2, limit 20. -/
def page2Filters : TaskFilterInput :=
  { status := none, priority := none, assignedToMe := none, createdByMe := none
    categoryId := none, overdue := none, page := some 2, limit := some 20 }

/-- C1: the claim (and the repository's own module documentation and error
messages) state that role OWNER grants the task-modification operations, but
canUserModifyTask consults no role and no caller supplies the owner check: at
the concrete store db1, membership m3 holds role OWNER yet updateTask,
updateTaskStatus and updateTaskAssignees all refuse it with Forbidden.  For
non-owner actors the operations do permit exactly the creator and the
assignees, so the claim fails only on its OWNER disjunct. -/
theorem C1_owner_modification_forbidden :
    member3.role = Role.OWNER ∧
    member3.id ≠ task1.createdById ∧
    (∀ a ∈ assigneesOf db1 task1.id, a.houseMemberId ≠ member3.id) ∧
    canUserModifyTask db1 task1 member3.id = false ∧
    updateTask db1 "t1" "h1" "m3" noUpdate =
      .error (AppError.Forbidden
        "Only task creator, assignees, or house owner can update this task") ∧
    updateTaskStatus db1 "t1" "h1" "m3" TaskStatus.COMPLETED 100 =
      .error (AppError.Forbidden
        "Only task creator, assignees, or house owner can update task status") ∧
    updateTaskAssignees db1 "t1" "h1" "m3" [] =
      .error (AppError.Forbidden
        "Only task creator, assignees, or house owner can update task assignees") := by
  decide

/-- C10: an OWNER-to-OWNER role update never consults the owner count (the
last-owner check fires only when the requested role differs from OWNER), so it
succeeds even on the sole owner and returns the membership unchanged, leaving
the store untouched. -/
theorem C10_owner_to_owner_noop (db : DB) (houseId targetUserId : String) (M : HouseMember)
    (huniq : (db.members.map fun m => (m.userId, m.houseId)).Nodup)
    (hfind : findMemberByUserHouse db targetUserId houseId = some M)
    (hrole : M.role = Role.OWNER) :
    updateMemberRole db houseId targetUserId Role.OWNER = .ok (M, db) := by
  have hfind2 : db.members.find?
      (fun m => m.userId == targetUserId && m.houseId == houseId) = some M := hfind
  have hMmem : M ∈ db.members := List.mem_of_find?_eq_some hfind2
  have hMpred := List.find?_some hfind2
  simp only [Bool.and_eq_true, beq_iff_eq] at hMpred
  have hmap : (db.members.map fun m =>
      if m.userId == targetUserId && m.houseId == houseId then
        { m with role := Role.OWNER } else m) = db.members := by
    have : ∀ m ∈ db.members,
        (if m.userId == targetUserId && m.houseId == houseId then
          { m with role := Role.OWNER } else m) = m := by
      intro m hm
      by_cases hcase : (m.userId == targetUserId && m.houseId == houseId) = true
      · have hkey : (fun m : HouseMember => (m.userId, m.houseId)) m
            = (fun m : HouseMember => (m.userId, m.houseId)) M := by
          simp only [Bool.and_eq_true, beq_iff_eq] at hcase
          simp [hcase.1, hcase.2, hMpred.1, hMpred.2]
        have hmM : m = M := List.inj_on_of_nodup_map huniq hm hMmem hkey
        subst hmM
        simp [hcase, ← hrole]
      · simp [hcase]
    calc (db.members.map fun m =>
          if m.userId == targetUserId && m.houseId == houseId then
            { m with role := Role.OWNER } else m)
        = db.members.map id := List.map_congr_left this
      _ = db.members := List.map_id db.members
  have hM2 : ({ M with role := Role.OWNER } : HouseMember) = M := by
    cases M
    simp_all
  simp only [updateMemberRole, hfind]
  rw [if_neg (by simp)]
  rw [hmap, hM2]

/-- Witness for C10 at the fixture store: u3 is the sole owner of h1 and the
OWNER-to-OWNER update on it succeeds unchanged. -/
theorem C10_witness :
    (db1.members.map fun m => (m.userId, m.houseId)).Nodup ∧
    findMemberByUserHouse db1 "u3" "h1" = some member3 ∧
    member3.role = Role.OWNER ∧
    updateMemberRole db1 "h1" "u3" Role.OWNER = .ok (member3, db1) :=
  ⟨by decide, by decide, by decide,
    C10_owner_to_owner_noop db1 "h1" "u3" member3 (by decide) (by decide) (by decide)⟩

/-- C4: with a fresh house id, createHouse succeeds and the new house exists
with exactly one membership, which has role OWNER, the requested display name
and the acting user; the transactional embedding makes the error branches
expose no intermediate state, so a house without its owner membership is never
observable. -/
theorem C4_create_house_single_owner (db : DB)
    (userId name displayName newHouseId newMemberId : String) (description : Option String)
    (hfreshHouse : ∀ h ∈ db.houses, h.id ≠ newHouseId)
    (hfreshMember : ∀ m ∈ db.members, m.houseId ≠ newHouseId) :
    ∃ db2, createHouse db userId name description displayName newHouseId newMemberId = .ok db2 ∧
      membersOf db2 newHouseId =
        [{ id := newMemberId, userId := userId, houseId := newHouseId
           displayName := displayName, role := Role.OWNER }] ∧
      ({ id := newHouseId, name := name, description := description } : House) ∈ db2.houses ∧
      ∀ m ∈ membersOf db2 newHouseId, m.role = Role.OWNER := by
  have hh : (db.houses.any fun h => h.id == newHouseId) = false := by
    simp only [List.any_eq_false, beq_iff_eq]
    intro h hmem
    exact hfreshHouse h hmem
  have hm : (db.members.any fun m =>
      (m.userId == userId && m.houseId == newHouseId)
      || (m.displayName == displayName && m.houseId == newHouseId)) = false := by
    simp only [List.any_eq_false, Bool.or_eq_true, Bool.and_eq_true, beq_iff_eq]
    intro m hmem
    push_neg
    constructor
    · intro _
      exact hfreshMember m hmem
    · intro _
      exact hfreshMember m hmem
  have hfilter : db.members.filter (fun m => m.houseId == newHouseId) = [] := by
    simp only [List.filter_eq_nil_iff, beq_iff_eq]
    intro m hmem
    exact hfreshMember m hmem
  have hrun : createHouse db userId name description displayName newHouseId newMemberId =
      .ok { db with
        houses := { id := newHouseId, name := name, description := description } :: db.houses
        members := { id := newMemberId, userId := userId, houseId := newHouseId
                     displayName := displayName, role := Role.OWNER } :: db.members } := by
    simp [createHouse, hh, hm]
  refine ⟨_, hrun, ?_, ?_, ?_⟩
  · simp [membersOf, List.filter_cons, hfilter]
  · exact List.mem_cons_self _ _
  · intro m hmem
    simp only [membersOf, List.filter_cons, hfilter, beq_self_eq_true, if_pos,
      List.mem_singleton] at hmem
    subst hmem
    rfl

/-- Witness for C4 at the fixture store with fresh house id h2. -/
theorem C4_witness :
    (∀ h ∈ db1.houses, h.id ≠ "h2") ∧
    (∀ m ∈ db1.members, m.houseId ≠ "h2") ∧
    ∃ db2, createHouse db1 "u1" "Lake" none "Ana" "h2" "hm9" = .ok db2 ∧
      membersOf db2 "h2" =
        [{ id := "hm9", userId := "u1", houseId := "h2"
           displayName := "Ana", role := Role.OWNER }] ∧
      ({ id := "h2", name := "Lake", description := none } : House) ∈ db2.houses ∧
      ∀ m ∈ membersOf db2 "h2", m.role = Role.OWNER :=
  ⟨by decide, by decide,
    C4_create_house_single_owner db1 "u1" "Lake" "Ana" "h2" "hm9" none
      (by decide) (by decide)⟩

/-- Inversion of a successful scoped task lookup: the task is a stored row and
carries the requested id and house id. -/
theorem getTaskById_ok (db : DB) (taskId houseId : String) (task : Task)
    (h : getTaskById db taskId houseId = .ok task) :
    task ∈ db.tasks ∧ task.id = taskId ∧ task.houseId = houseId := by
  unfold getTaskById at h
  cases hf : db.tasks.find? fun t => t.id == taskId && t.houseId == houseId with
  | none => rw [hf] at h; exact absurd h (by simp)
  | some t =>
    rw [hf] at h
    injection h with h
    subst h
    have hp := List.find?_some hf
    simp only [Bool.and_eq_true, beq_iff_eq] at hp
    exact ⟨List.mem_of_find?_eq_some hf, hp.1, hp.2⟩

/-- C5: for a permitted actor on an existing task, updateTaskStatus with
COMPLETED returns the task with completedAt stamped to the current time
(re-stamped on every call, repeated COMPLETED included, since no old value is
consulted), with PENDING returns it with completedAt null; after any
updateTaskStatus call the stored row has completedAt non-null exactly when its
status is COMPLETED; and updateTask leaves completedAt untouched, so status
transitions are the only completedAt writers among the task mutations. -/
theorem C5_completed_at_coupling (db : DB) (taskId houseId mId : String) (task : Task)
    (now : Int)
    (htask : getTaskById db taskId houseId = .ok task)
    (hperm : canUserModifyTask db task mId = true) :
    (∃ db2, updateTaskStatus db taskId houseId mId TaskStatus.COMPLETED now =
      .ok ({ task with status := TaskStatus.COMPLETED, completedAt := some now }, db2)) ∧
    (∃ db2, updateTaskStatus db taskId houseId mId TaskStatus.PENDING now =
      .ok ({ task with status := TaskStatus.PENDING, completedAt := none }, db2)) ∧
    (∀ s t2 db2, updateTaskStatus db taskId houseId mId s now = .ok (t2, db2) →
      t2.status = s ∧ (t2.completedAt ≠ none ↔ t2.status = TaskStatus.COMPLETED) ∧
      (t2.status = TaskStatus.COMPLETED → t2.completedAt = some now) ∧
      t2 ∈ db2.tasks) ∧
    (∀ data t2 db2, updateTask db taskId houseId mId data = .ok (t2, db2) →
      t2.completedAt = task.completedAt) := by
  obtain ⟨htmem, hid, _⟩ := getTaskById_ok db taskId houseId task htask
  have hrun : ∀ s : TaskStatus, updateTaskStatus db taskId houseId mId s now =
      .ok ({ task with
               status := s
               completedAt := (match s with
                 | TaskStatus.COMPLETED => some now
                 | TaskStatus.PENDING => none) },
        { db with
            tasks := db.tasks.map fun t =>
              if t.id == taskId then
                { t with
                    status := s
                    completedAt := (match s with
                      | TaskStatus.COMPLETED => some now
                      | TaskStatus.PENDING => none) }
              else t }) := by
    intro s
    simp [updateTaskStatus, htask, hperm]
  refine ⟨⟨_, hrun TaskStatus.COMPLETED⟩, ⟨_, hrun TaskStatus.PENDING⟩, ?_, ?_⟩
  · intro s t2 db2 h
    rw [hrun s] at h
    simp only [Except.ok.injEq, Prod.mk.injEq] at h
    obtain ⟨h1, h2⟩ := h
    subst h1
    subst h2
    refine ⟨rfl, ?_, ?_, ?_⟩
    · cases s <;> simp
    · cases s <;> simp
    · have hf : (fun t : Task =>
          if t.id == taskId then
            ({ t with
                 status := s
                 completedAt := (match s with
                   | TaskStatus.COMPLETED => some now
                   | TaskStatus.PENDING => none) } : Task)
          else t) task =
          { task with
              status := s
              completedAt := (match s with
                | TaskStatus.COMPLETED => some now
                | TaskStatus.PENDING => none) } := by
        simp [hid]
      exact List.mem_map.mpr ⟨task, htmem, hf⟩
  · intro data t2 db2 h
    by_cases hc : categoryScopeOk db data.categoryId houseId = false
    · simp [updateTask, htask, hperm, hc] at h
    · simp only [updateTask, htask, hperm, hc, Bool.false_eq_true, if_false,
        reduceCtorEq, ite_false, Except.ok.injEq, Prod.mk.injEq] at h
      obtain ⟨h1, _⟩ := h
      subst h1
      simp [applyTaskUpdate]

/-- Witness for C5 at the fixture store: the assignee m2 completes and then
reopens task t1. -/
theorem C5_witness :
    (getTaskById db1 "t1" "h1" = .ok task1 ∧ canUserModifyTask db1 task1 "m2" = true) ∧
    ((∃ db2, updateTaskStatus db1 "t1" "h1" "m2" TaskStatus.COMPLETED 100 =
      .ok ({ task1 with status := TaskStatus.COMPLETED, completedAt := some 100 }, db2)) ∧
    (∃ db2, updateTaskStatus db1 "t1" "h1" "m2" TaskStatus.PENDING 100 =
      .ok ({ task1 with status := TaskStatus.PENDING, completedAt := none }, db2)) ∧
    (∀ s t2 db2, updateTaskStatus db1 "t1" "h1" "m2" s 100 = .ok (t2, db2) →
      t2.status = s ∧ (t2.completedAt ≠ none ↔ t2.status = TaskStatus.COMPLETED) ∧
      (t2.status = TaskStatus.COMPLETED → t2.completedAt = some 100) ∧
      t2 ∈ db2.tasks) ∧
    (∀ data t2 db2, updateTask db1 "t1" "h1" "m2" data = .ok (t2, db2) →
      t2.completedAt = task1.completedAt)) :=
  ⟨⟨by decide, by decide⟩,
    C5_completed_at_coupling db1 "t1" "h1" "m2" task1 100 (by decide) (by decide)⟩

/-- C3: deleteTask permits exactly the creator and OWNER-role actors; an actor
who is neither (an assignee-only MEMBER in particular) is refused with
Forbidden, and on refusal the store is unchanged, so the task remains. -/
theorem C3_delete_task_permission (db : DB) (taskId houseId mId : String) (task : Task)
    (mem : HouseMember)
    (htask : getTaskById db taskId houseId = .ok task)
    (hmem : findMemberById db mId = some mem) :
    ((∃ db2, deleteTask db taskId houseId mId = .ok db2) ↔
      task.createdById = mId ∨ mem.role = Role.OWNER) ∧
    (task.createdById ≠ mId → mem.role ≠ Role.OWNER →
      deleteTask db taskId houseId mId =
        .error (AppError.Forbidden "Only task creator or house owner can delete this task") ∧
      task ∈ db.tasks) := by
  obtain ⟨htmem, _, _⟩ := getTaskById_ok db taskId houseId task htask
  have hrun : deleteTask db taskId houseId mId =
      if (task.createdById == mId || mem.role == Role.OWNER) = false then
        .error (AppError.Forbidden "Only task creator or house owner can delete this task")
      else
        .ok { db with
          tasks := db.tasks.filter fun t => !(t.id == taskId)
          assignees := db.assignees.filter fun a => !(a.taskId == taskId) } := by
    simp [deleteTask, htask, hmem]
  by_cases hc : task.createdById = mId ∨ mem.role = Role.OWNER
  · have hb : (task.createdById == mId || mem.role == Role.OWNER) = true := by
      simp only [Bool.or_eq_true, beq_iff_eq]
      exact hc
    refine ⟨⟨fun _ => hc, fun _ =>
      ⟨{ db with
          tasks := db.tasks.filter fun t => !(t.id == taskId)
          assignees := db.assignees.filter fun a => !(a.taskId == taskId) },
        by rw [hrun]; simp [hb]⟩⟩, ?_⟩
    intro h1 h2
    rcases hc with hc | hc
    · exact absurd hc h1
    · exact absurd hc h2
  · have hb : (task.createdById == mId || mem.role == Role.OWNER) = false := by
      simp only [Bool.or_eq_false_iff, beq_eq_false_iff_ne, ne_eq]
      push_neg at hc
      exact hc
    constructor
    · constructor
      · rintro ⟨db2, h⟩
        rw [hrun, if_pos hb] at h
        exact absurd h (by simp)
      · intro h
        exact absurd h hc
    · intro _ _
      exact ⟨by rw [hrun, if_pos hb], htmem⟩

/-- Witness for C3 at the fixture store: the assignee-only member m2 is refused
while the creator m1 and the owner m3 are permitted. -/
theorem C3_witness :
    (getTaskById db1 "t1" "h1" = .ok task1 ∧ findMemberById db1 "m2" = some member2) ∧
    (((∃ db2, deleteTask db1 "t1" "h1" "m2" = .ok db2) ↔
      task1.createdById = "m2" ∨ member2.role = Role.OWNER) ∧
    (task1.createdById ≠ "m2" → member2.role ≠ Role.OWNER →
      deleteTask db1 "t1" "h1" "m2" =
        .error (AppError.Forbidden "Only task creator or house owner can delete this task") ∧
      task1 ∈ db1.tasks)) :=
  ⟨⟨by decide, by decide⟩,
    C3_delete_task_permission db1 "t1" "h1" "m2" task1 member2 (by decide) (by decide)⟩

/-- Under a duplicate-free key projection, at most one list entry carries any
given key (the store's unique-constraint reading of Nodup). -/
theorem countP_key_le_one {α β : Type} [DecidableEq β] (f : α → β) (k : β) :
    ∀ l : List α, (l.map f).Nodup → l.countP (fun x => decide (f x = k)) ≤ 1
  | [], _ => by simp
  | a :: l, h => by
    rw [List.map_cons, List.nodup_cons] at h
    rw [List.countP_cons]
    by_cases hak : f a = k
    · have hzero : l.countP (fun x => decide (f x = k)) = 0 := by
        rw [List.countP_eq_zero]
        intro x hx
        simp only [decide_eq_true_eq]
        intro hfx
        exact h.1 (by rw [hak, ← hfx]; exact List.mem_map_of_mem f hx)
      simp [hzero, hak]
    · have hrec := countP_key_le_one f k l h.2
      have hfa : decide (f a = k) = false := by simpa using hak
      simpa [hfa] using hrec

/-- countP splits along any second predicate. -/
theorem countP_and_split {α : Type} (p q : α → Bool) :
    ∀ l : List α,
      l.countP p = l.countP (fun x => p x && q x) + l.countP (fun x => p x && !q x)
  | [] => by simp
  | a :: l => by
    rw [List.countP_cons, List.countP_cons, List.countP_cons, countP_and_split p q l]
    by_cases hp : p a <;> by_cases hq : q a <;> simp [hp, hq] <;> omega

/-- When at most one entry satisfies both predicates and either none does or at
least two satisfy the first, positively many satisfy the first but not the
second. -/
theorem countP_keep_pos {α : Type} (p mtc : α → Bool) (l : List α)
    (hpre : 1 ≤ l.countP p)
    (hbound : l.countP (fun x => p x && mtc x) ≤ 1)
    (h2 : l.countP (fun x => p x && mtc x) = 0 ∨ 2 ≤ l.countP p) :
    1 ≤ l.countP (fun x => p x && !mtc x) := by
  have hsplit := countP_and_split p mtc l
  rcases h2 with h2 | h2 <;> omega

/-- The owner count of a house as a countP over the membership table. -/
theorem ownerCount_eq_countP (db : DB) (h0 : String) :
    ownerCount db h0 = db.members.countP fun m => m.houseId == h0 && m.role == Role.OWNER := by
  rw [ownerCount, ownersOf, List.countP_eq_length_filter]

/-- A successful removeMember keeps at least one OWNER in every house that had
one: removal of an OWNER is only reachable when the house holds at least two. -/
theorem removeMember_preserves_owner (db : DB) (h1 u h0 : String) (db2 : DB)
    (huniq : (db.members.map fun m => (m.userId, m.houseId)).Nodup)
    (hpre : 1 ≤ ownerCount db h0)
    (hok : removeMember db h1 u = .ok db2) :
    1 ≤ ownerCount db2 h0 := by
  unfold removeMember at hok
  cases hf : findMemberByUserHouse db u h1 with
  | none => rw [hf] at hok; exact absurd hok (by simp)
  | some tm =>
    simp only [hf] at hok
    by_cases hc : tm.role = Role.OWNER ∧ ownerCount db h1 ≤ 1
    · rw [if_pos hc] at hok
      exact absurd hok (by simp)
    · rw [if_neg hc] at hok
      injection hok with hok
      subst hok
      have hfind2 : db.members.find?
          (fun m => m.userId == u && m.houseId == h1) = some tm := hf
      have htmmem : tm ∈ db.members := List.mem_of_find?_eq_some hfind2
      have htmpred := List.find?_some hfind2
      simp only [Bool.and_eq_true, beq_iff_eq] at htmpred
      rw [ownerCount_eq_countP] at hpre ⊢
      simp only [List.countP_filter]
      refine countP_keep_pos (fun m => m.houseId == h0 && m.role == Role.OWNER)
        (fun m => m.userId == u && m.houseId == h1) db.members hpre ?_ ?_
      · refine le_trans (List.countP_mono_left ?_)
          (countP_key_le_one (fun m : HouseMember => (m.userId, m.houseId))
            (u, h1) db.members huniq)
        intro m _ hm
        simp only [Bool.and_eq_true, beq_iff_eq] at hm
        simp [hm.2.1, hm.2.2]
      · by_cases hzero : db.members.countP (fun m =>
            (m.houseId == h0 && m.role == Role.OWNER) &&
            (m.userId == u && m.houseId == h1)) = 0
        · exact Or.inl hzero
        · refine Or.inr ?_
          have hpos : 0 < db.members.countP (fun m =>
              (m.houseId == h0 && m.role == Role.OWNER) &&
              (m.userId == u && m.houseId == h1)) := Nat.pos_of_ne_zero hzero
          rw [List.countP_pos_iff] at hpos
          obtain ⟨m, hmmem, hmpred⟩ := hpos
          simp only [Bool.and_eq_true, beq_iff_eq] at hmpred
          obtain ⟨⟨hmh0, hmrole⟩, hmu, hmh1⟩ := hmpred
          have hmtm : m = tm :=
            List.inj_on_of_nodup_map huniq hmmem htmmem
              (by simp [hmu, hmh1, htmpred.1, htmpred.2])
          have hrole : tm.role = Role.OWNER := by rw [← hmtm]; exact hmrole
          have hcnt : 2 ≤ ownerCount db h1 := by
            rcases not_and_or.mp hc with hc1 | hc1
            · exact absurd hrole hc1
            · omega
          have hh01 : h0 = h1 := by rw [← hmh0]; exact hmh1
          rw [ownerCount_eq_countP, ← hh01] at hcnt
          exact hcnt

/-- A successful updateMemberRole keeps at least one OWNER in every house that
had one: demotion away from OWNER is only reachable when the house holds at
least two, and any other role write cannot lower the owner count below one. -/
theorem updateMemberRole_preserves_owner (db : DB) (h1 u h0 : String) (r : Role)
    (mm : HouseMember) (db2 : DB)
    (huniq : (db.members.map fun m => (m.userId, m.houseId)).Nodup)
    (hpre : 1 ≤ ownerCount db h0)
    (hok : updateMemberRole db h1 u r = .ok (mm, db2)) :
    1 ≤ ownerCount db2 h0 := by
  unfold updateMemberRole at hok
  cases hf : findMemberByUserHouse db u h1 with
  | none => rw [hf] at hok; exact absurd hok (by simp)
  | some tm =>
    simp only [hf] at hok
    by_cases hc : tm.role = Role.OWNER ∧ r ≠ Role.OWNER ∧ ownerCount db h1 ≤ 1
    · rw [if_pos hc] at hok
      exact absurd hok (by simp)
    · rw [if_neg hc] at hok
      simp only [Except.ok.injEq, Prod.mk.injEq] at hok
      obtain ⟨-, hok⟩ := hok
      subst hok
      have hfind2 : db.members.find?
          (fun m => m.userId == u && m.houseId == h1) = some tm := hf
      have htmmem : tm ∈ db.members := List.mem_of_find?_eq_some hfind2
      have htmpred := List.find?_some hfind2
      simp only [Bool.and_eq_true, beq_iff_eq] at htmpred
      rw [ownerCount_eq_countP] at hpre ⊢
      simp only [List.countP_map]
      by_cases hrowner : r = Role.OWNER
      · refine le_trans hpre (List.countP_mono_left ?_)
        intro m _ hm
        simp only [Function.comp_apply]
        by_cases hmatch : (m.userId == u && m.houseId == h1) = true
        · rw [if_pos hmatch]
          simp only [Bool.and_eq_true, beq_iff_eq] at hm ⊢
          exact ⟨hm.1, hrowner⟩
        · rw [if_neg hmatch]
          exact hm
      · have hstep : 1 ≤ db.members.countP (fun m =>
            (m.houseId == h0 && m.role == Role.OWNER) &&
            !(m.userId == u && m.houseId == h1)) := by
          refine countP_keep_pos (fun m => m.houseId == h0 && m.role == Role.OWNER)
            (fun m => m.userId == u && m.houseId == h1) db.members hpre ?_ ?_
          · refine le_trans (List.countP_mono_left ?_)
              (countP_key_le_one (fun m : HouseMember => (m.userId, m.houseId))
                (u, h1) db.members huniq)
            intro m _ hm
            simp only [Bool.and_eq_true, beq_iff_eq] at hm
            simp [hm.2.1, hm.2.2]
          · by_cases hzero : db.members.countP (fun m =>
                (m.houseId == h0 && m.role == Role.OWNER) &&
                (m.userId == u && m.houseId == h1)) = 0
            · exact Or.inl hzero
            · refine Or.inr ?_
              have hpos : 0 < db.members.countP (fun m =>
                  (m.houseId == h0 && m.role == Role.OWNER) &&
                  (m.userId == u && m.houseId == h1)) := Nat.pos_of_ne_zero hzero
              rw [List.countP_pos_iff] at hpos
              obtain ⟨m, hmmem, hmpred⟩ := hpos
              simp only [Bool.and_eq_true, beq_iff_eq] at hmpred
              obtain ⟨⟨hmh0, hmrole⟩, hmu, hmh1⟩ := hmpred
              have hmtm : m = tm :=
                List.inj_on_of_nodup_map huniq hmmem htmmem
                  (by simp [hmu, hmh1, htmpred.1, htmpred.2])
              have hrole : tm.role = Role.OWNER := by rw [← hmtm]; exact hmrole
              have hcnt : 2 ≤ ownerCount db h1 := by
                rcases not_and_or.mp hc with hc1 | hc1
                · exact absurd hrole hc1
                · rcases not_and_or.mp hc1 with hc2 | hc2
                  · exact absurd hrowner hc2
                  · omega
              have hh01 : h0 = h1 := by rw [← hmh0]; exact hmh1
              rw [ownerCount_eq_countP, ← hh01] at hcnt
              exact hcnt
        refine le_trans hstep (List.countP_mono_left ?_)
        intro m _ hm
        simp only [Bool.and_eq_true, Bool.not_eq_true'] at hm
        simp only [Function.comp_apply]
        rw [if_neg (by simp [hm.2])]
        simp only [Bool.and_eq_true]
        exact hm.1

/-- C2: when a house has exactly one OWNER membership M, removeMember on M's
user fails with UnprocessableEntity and updateMemberRole demoting M to MEMBER
fails with UnprocessableEntity (both leaving the store untouched, since the
error branches expose no new state); moreover any successful removeMember or
updateMemberRole call preserves at-least-one-OWNER for every house, so the
last-owner invariant holds across both operations.  The membership table is
assumed duplicate-free on the (userId, houseId) key, the store's unique
constraint. -/
theorem C2_last_owner_invariant (db : DB) (h : String) (M : HouseMember)
    (huniq : (db.members.map fun m => (m.userId, m.houseId)).Nodup)
    (hM : ownersOf db h = [M]) :
    removeMember db h M.userId =
      .error (AppError.UnprocessableEntity "Cannot remove the last owner of the house") ∧
    updateMemberRole db h M.userId Role.MEMBER =
      .error (AppError.UnprocessableEntity "Cannot demote the last owner of the house") ∧
    (∀ h1 h0 u db2, 1 ≤ ownerCount db h0 → removeMember db h1 u = .ok db2 →
      1 ≤ ownerCount db2 h0) ∧
    (∀ h1 h0 u r mm db2, 1 ≤ ownerCount db h0 →
      updateMemberRole db h1 u r = .ok (mm, db2) → 1 ≤ ownerCount db2 h0) := by
  have hMin : M ∈ ownersOf db h := by rw [hM]; exact List.mem_singleton_self M
  rw [ownersOf, List.mem_filter] at hMin
  obtain ⟨hMmem, hMpred⟩ := hMin
  simp only [Bool.and_eq_true, beq_iff_eq] at hMpred
  have hcount : ownerCount db h = 1 := by rw [ownerCount, hM]; rfl
  have hfind : findMemberByUserHouse db M.userId h = some M := by
    unfold findMemberByUserHouse
    cases hfx : db.members.find? (fun m => m.userId == M.userId && m.houseId == h) with
    | none =>
      rw [List.find?_eq_none] at hfx
      exact absurd (by simp [hMpred.1] : (M.userId == M.userId && M.houseId == h) = true)
        (by simpa using hfx M hMmem)
    | some x =>
      have hxmem : x ∈ db.members := List.mem_of_find?_eq_some hfx
      have hxpred := List.find?_some hfx
      simp only [Bool.and_eq_true, beq_iff_eq] at hxpred
      have : x = M :=
        List.inj_on_of_nodup_map huniq hxmem hMmem
          (by simp [hxpred.1, hxpred.2, hMpred.1])
      rw [this]
  refine ⟨?_, ?_, ?_, ?_⟩
  · simp only [removeMember, hfind]
    rw [if_pos ⟨hMpred.2, by omega⟩]
  · simp only [updateMemberRole, hfind]
    rw [if_pos ⟨hMpred.2, by simp, by omega⟩]
  · intro h1 h0 u db2 hpre hok
    exact removeMember_preserves_owner db h1 u h0 db2 huniq hpre hok
  · intro h1 h0 u r mm db2 hpre hok
    exact updateMemberRole_preserves_owner db h1 u h0 r mm db2 huniq hpre hok

/-- Witness for C2 at the fixture store: m3 is the sole OWNER of h1, so
removing or demoting u3 fails while owner retention holds for every call. -/
theorem C2_witness :
    ((db1.members.map fun m => (m.userId, m.houseId)).Nodup ∧
      ownersOf db1 "h1" = [member3]) ∧
    (removeMember db1 "h1" member3.userId =
      .error (AppError.UnprocessableEntity "Cannot remove the last owner of the house") ∧
    updateMemberRole db1 "h1" member3.userId Role.MEMBER =
      .error (AppError.UnprocessableEntity "Cannot demote the last owner of the house") ∧
    (∀ h1 h0 u db2, 1 ≤ ownerCount db1 h0 → removeMember db1 h1 u = .ok db2 →
      1 ≤ ownerCount db2 h0) ∧
    (∀ h1 h0 u r mm db2, 1 ≤ ownerCount db1 h0 →
      updateMemberRole db1 h1 u r = .ok (mm, db2) → 1 ≤ ownerCount db2 h0)) :=
  ⟨⟨by decide, by decide⟩,
    C2_last_owner_invariant db1 "h1" member3 (by decide) (by decide)⟩

/-- C6: when some requested assignee id does not resolve to a membership of the
target house, createTask fails with UnprocessableEntity: the scope check runs
before the insert transaction, and the error branch exposes no new state, so no
Task row and no TaskAssignment rows are created.  Member ids are assumed
duplicate-free (the store's primary key). -/
theorem C6_create_task_foreign_assignee (db : DB)
    (houseId createdById newTaskId : String) (data : CreateTaskInput) (now : Int)
    (ids : List String) (bad : String)
    (hids : data.assigneeIds = some ids)
    (hbad : bad ∈ ids)
    (hnores : ∀ m ∈ db.members, m.id = bad → m.houseId ≠ houseId)
    (huniq : (db.members.map fun m => m.id).Nodup) :
    createTask db houseId createdById data newTaskId now =
      .error (AppError.UnprocessableEntity "Some assignees are not members of this house") := by
  have hlenpos : 0 < ids.length := List.length_pos.mpr (List.ne_nil_of_mem hbad)
  have hlt : (scopedMembersIn db ids houseId).length < ids.length := by
    simp only [scopedMembersIn]
    have hsub : List.Sublist
        ((db.members.filter fun m =>
          ids.contains m.id && m.houseId == houseId).map fun m => m.id)
        (db.members.map fun m => m.id) :=
      List.Sublist.map _ (List.filter_sublist _)
    have hnodupF := List.Nodup.sublist hsub huniq
    have hsubset : ((db.members.filter fun m =>
          ids.contains m.id && m.houseId == houseId).map fun m => m.id).toFinset ⊆
        ids.toFinset.erase bad := by
      intro x hx
      rw [List.mem_toFinset, List.mem_map] at hx
      obtain ⟨m, hmF, hmx⟩ := hx
      rw [List.mem_filter] at hmF
      obtain ⟨hmmem, hmpred⟩ := hmF
      simp only [Bool.and_eq_true, beq_iff_eq] at hmpred
      have hxids : x ∈ ids := by
        rw [← hmx]
        simpa using hmpred.1
      have hxbad : x ≠ bad := by
        intro hxb
        exact hnores m hmmem (by rw [hmx, hxb]) hmpred.2
      rw [Finset.mem_erase, List.mem_toFinset]
      exact ⟨hxbad, hxids⟩
    calc (db.members.filter fun m => ids.contains m.id && m.houseId == houseId).length
        = ((db.members.filter fun m =>
            ids.contains m.id && m.houseId == houseId).map fun m => m.id).length := by
          rw [List.length_map]
      _ = ((db.members.filter fun m =>
            ids.contains m.id && m.houseId == houseId).map fun m => m.id).toFinset.card :=
          (List.toFinset_card_of_nodup hnodupF).symm
      _ ≤ (ids.toFinset.erase bad).card := Finset.card_le_card hsubset
      _ < ids.toFinset.card := Finset.card_erase_lt_of_mem (List.mem_toFinset.mpr hbad)
      _ ≤ ids.length := List.toFinset_card_le ids
  simp only [createTask, hids, Option.getD_some]
  rw [if_pos ⟨hlenpos, by omega⟩]

/-- Witness for C6 at the fixture store: assignee id zz resolves to no
membership of h1. -/
theorem C6_witness :
    (({ title := "X", description := none, priority := Priority.MEDIUM, dueDate := none
        categoryId := none, assigneeIds := some ["zz"] } : CreateTaskInput).assigneeIds
      = some ["zz"] ∧
     "zz" ∈ ["zz"] ∧
     (∀ m ∈ db1.members, m.id = "zz" → m.houseId ≠ "h1") ∧
     (db1.members.map fun m => m.id).Nodup) ∧
    createTask db1 "h1" "m1"
      { title := "X", description := none, priority := Priority.MEDIUM, dueDate := none
        categoryId := none, assigneeIds := some ["zz"] } "t9" 0 =
      .error (AppError.UnprocessableEntity "Some assignees are not members of this house") :=
  ⟨⟨by decide, by decide, by decide, by decide⟩,
    C6_create_task_foreign_assignee db1 "h1" "m1" "t9" _ 0 ["zz"] "zz"
      (by decide) (by decide) (by decide) (by decide)⟩

/-- When every requested id is distinct and resolves to a membership of the
house, the scope query returns exactly as many rows as there are ids. -/
theorem scopedMembersIn_length_eq (db : DB) (houseId : String) (L : List String)
    (hL : L.Nodup)
    (huniq : (db.members.map fun m => m.id).Nodup)
    (hres : ∀ a ∈ L, ∃ m ∈ db.members, m.id = a ∧ m.houseId = houseId) :
    (scopedMembersIn db L houseId).length = L.length := by
  simp only [scopedMembersIn]
  have hsub : List.Sublist
      ((db.members.filter fun m =>
        L.contains m.id && m.houseId == houseId).map fun m => m.id)
      (db.members.map fun m => m.id) :=
    List.Sublist.map _ (List.filter_sublist _)
  have hnodupF := List.Nodup.sublist hsub huniq
  have hmemiff : ∀ x, x ∈ ((db.members.filter fun m =>
      L.contains m.id && m.houseId == houseId).map fun m => m.id) ↔ x ∈ L := by
    intro x
    constructor
    · intro hx
      rw [List.mem_map] at hx
      obtain ⟨m, hmF, hmx⟩ := hx
      rw [List.mem_filter] at hmF
      obtain ⟨-, hmpred⟩ := hmF
      simp only [Bool.and_eq_true, beq_iff_eq] at hmpred
      rw [← hmx]
      simpa using hmpred.1
    · intro hx
      obtain ⟨m, hmmem, hmid, hmh⟩ := hres x hx
      rw [List.mem_map]
      refine ⟨m, ?_, hmid⟩
      rw [List.mem_filter]
      refine ⟨hmmem, ?_⟩
      simp only [Bool.and_eq_true, beq_iff_eq]
      exact ⟨by simpa [hmid] using hx, hmh⟩
  have hfin : ((db.members.filter fun m =>
      L.contains m.id && m.houseId == houseId).map fun m => m.id).toFinset = L.toFinset := by
    ext x
    rw [List.mem_toFinset, List.mem_toFinset]
    exact hmemiff x
  calc (db.members.filter fun m => L.contains m.id && m.houseId == houseId).length
      = ((db.members.filter fun m =>
          L.contains m.id && m.houseId == houseId).map fun m => m.id).length := by
        rw [List.length_map]
    _ = ((db.members.filter fun m =>
          L.contains m.id && m.houseId == houseId).map fun m => m.id).toFinset.card :=
        (List.toFinset_card_of_nodup hnodupF).symm
    _ = L.toFinset.card := by rw [hfin]
    _ = L.length := List.toFinset_card_of_nodup hL

/-- C7: for a permitted actor and a duplicate-free list L of at most 10 ids all
scoped to the house, the assignee endpoint succeeds and afterwards the
TaskAssignment rows of the task are exactly those of L (full replace,
regardless of the prior set), rows of every other task are untouched, the empty
list yields zero rows, and any list longer than 10 is rejected by the schema
before the service runs. -/
theorem C7_full_replace (db : DB) (taskId houseId mId : String) (task : Task)
    (L : List String)
    (htask : getTaskById db taskId houseId = .ok task)
    (hperm : canUserModifyTask db task mId = true)
    (hL : L.Nodup)
    (huniq : (db.members.map fun m => m.id).Nodup)
    (hres : ∀ a ∈ L, ∃ m ∈ db.members, m.id = a ∧ m.houseId = houseId)
    (hlen : L.length ≤ 10) :
    (updateTaskAssigneesEndpoint db taskId houseId mId L =
      .ok { db with assignees :=
        (L.map fun a => { taskId := taskId, houseMemberId := a })
          ++ db.assignees.filter fun a => !(a.taskId == taskId) }) ∧
    (∀ db2, updateTaskAssigneesEndpoint db taskId houseId mId L = .ok db2 →
      assigneesOf db2 taskId =
        (L.map fun a => { taskId := taskId, houseMemberId := a }) ∧
      (∀ t2, t2 ≠ taskId → assigneesOf db2 t2 = assigneesOf db t2) ∧
      (L = [] → assigneesOf db2 taskId = [])) ∧
    (∀ L2 : List String, 10 < L2.length →
      updateTaskAssigneesEndpoint db taskId houseId mId L2 =
        .error (.validation "Cannot assign more than 10 members to a task")) := by
  have hFlen := scopedMembersIn_length_eq db houseId L hL huniq hres
  have hrun : updateTaskAssigneesEndpoint db taskId houseId mId L =
      .ok { db with assignees :=
        (L.map fun a => { taskId := taskId, houseMemberId := a })
          ++ db.assignees.filter fun a => !(a.taskId == taskId) } := by
    unfold updateTaskAssigneesEndpoint parseAssigneeIds
    rw [if_neg (by omega)]
    simp only [updateTaskAssignees, htask, hperm]
    rw [if_neg (by simp), if_neg (by omega)]
  refine ⟨hrun, ?_, ?_⟩
  · intro db2 h
    rw [hrun] at h
    injection h with h
    subst h
    refine ⟨?_, ?_, ?_⟩
    · simp only [assigneesOf, List.filter_append]
      have h1 : ((L.map fun a =>
          ({ taskId := taskId, houseMemberId := a } : TaskAssignee)).filter
            fun a => a.taskId == taskId) =
          L.map fun a => { taskId := taskId, houseMemberId := a } := by
        rw [List.filter_eq_self]
        intro a ha
        rw [List.mem_map] at ha
        obtain ⟨x, -, hx⟩ := ha
        rw [← hx]
        simp
      have h2 : ((db.assignees.filter fun a => !(a.taskId == taskId)).filter
          fun a => a.taskId == taskId) = [] := by
        rw [List.filter_eq_nil_iff]
        intro a ha
        rw [List.mem_filter] at ha
        simp only [Bool.not_eq_true'] at ha
        simp [ha.2]
      rw [h1, h2, List.append_nil]
    · intro t2 ht2
      simp only [assigneesOf, List.filter_append]
      have h1 : ((L.map fun a =>
          ({ taskId := taskId, houseMemberId := a } : TaskAssignee)).filter
            fun a => a.taskId == t2) = [] := by
        rw [List.filter_eq_nil_iff]
        intro a ha
        rw [List.mem_map] at ha
        obtain ⟨x, -, hx⟩ := ha
        rw [← hx]
        simp only [beq_iff_eq]
        exact fun hc => ht2 hc.symm
      have h2 : ((db.assignees.filter fun a => !(a.taskId == taskId)).filter
          fun a => a.taskId == t2) = db.assignees.filter fun a => a.taskId == t2 := by
        rw [List.filter_filter]
        apply List.filter_congr
        intro a _
        by_cases hc : a.taskId = t2
        · simp [hc, ht2]
        · simp [hc]
      rw [h1, h2, List.nil_append]
    · intro hLnil
      subst hLnil
      simp only [assigneesOf, List.filter_append, List.map_nil, List.nil_append]
      rw [List.filter_eq_nil_iff]
      intro a ha
      rw [List.mem_filter] at ha
      simp only [Bool.not_eq_true'] at ha
      simp [ha.2]
  · intro L2 hL2
    unfold updateTaskAssigneesEndpoint parseAssigneeIds
    rw [if_pos (by omega)]

/-- Witness for C7 at the fixture store: the creator m1 replaces the assignee
set of t1 with the two ids m2, m3. -/
theorem C7_witness :
    (getTaskById db1 "t1" "h1" = .ok task1 ∧
     canUserModifyTask db1 task1 "m1" = true ∧
     (["m2", "m3"] : List String).Nodup ∧
     (db1.members.map fun m => m.id).Nodup ∧
     (∀ a ∈ (["m2", "m3"] : List String),
        ∃ m ∈ db1.members, m.id = a ∧ m.houseId = "h1") ∧
     (["m2", "m3"] : List String).length ≤ 10) ∧
    ((updateTaskAssigneesEndpoint db1 "t1" "h1" "m1" ["m2", "m3"] =
      .ok { db1 with assignees :=
        ((["m2", "m3"] : List String).map fun a => { taskId := "t1", houseMemberId := a })
          ++ db1.assignees.filter fun a => !(a.taskId == "t1") }) ∧
    (∀ db2, updateTaskAssigneesEndpoint db1 "t1" "h1" "m1" ["m2", "m3"] = .ok db2 →
      assigneesOf db2 "t1" =
        ((["m2", "m3"] : List String).map fun a => { taskId := "t1", houseMemberId := a }) ∧
      (∀ t2, t2 ≠ "t1" → assigneesOf db2 t2 = assigneesOf db1 t2) ∧
      ((["m2", "m3"] : List String) = [] → assigneesOf db2 "t1" = [])) ∧
    (∀ L2 : List String, 10 < L2.length →
      updateTaskAssigneesEndpoint db1 "t1" "h1" "m1" L2 =
        .error (.validation "Cannot assign more than 10 members to a task"))) :=
  ⟨⟨by decide, by decide, by decide, by decide, by decide, by decide⟩,
    C7_full_replace db1 "t1" "h1" "m1" task1 ["m2", "m3"]
      (by decide) (by decide) (by decide) (by decide) (by decide) (by decide)⟩

/-- C8 counterexample: the claim says an explicit null for description clears
the field, but updateTaskSchema declares the field optional without nullable,
so the parse rejects null with a validation error and the update never reaches
the store: at the fixture store the creator's update with description null
errors instead of clearing. -/
theorem C8_counterexample :
    updateTaskEndpoint db1 "t1" "h1" "m1"
      { title := JsonField.absent, description := JsonField.null
        priority := JsonField.absent, dueDate := JsonField.absent
        categoryId := JsonField.absent } 0 =
      .error (.validation "description: expected string, received null") := by
  decide

/-- A successful updateTaskSchema parse succeeds on every field. -/
theorem parseUpdateTask_ok (body : UpdateTaskBody) (now : Int) (u : UpdateTaskInput)
    (h : parseUpdateTask body now = .ok u) :
    parseTitleField body.title = .ok u.title ∧
    parseDescriptionField body.description = .ok u.description ∧
    parsePriorityField body.priority = .ok u.priority ∧
    parseDueDateField now body.dueDate = .ok u.dueDate ∧
    parseCategoryIdField body.categoryId = .ok u.categoryId := by
  unfold parseUpdateTask at h
  cases h1 : parseTitleField body.title with
  | error e => simp only [h1] at h; exact absurd h (by simp)
  | ok t =>
    simp only [h1] at h
    cases h2 : parseDescriptionField body.description with
    | error e => simp only [h2] at h; exact absurd h (by simp)
    | ok d =>
      simp only [h2] at h
      cases h3 : parsePriorityField body.priority with
      | error e => simp only [h3] at h; exact absurd h (by simp)
      | ok p =>
        simp only [h3] at h
        cases h4 : parseDueDateField now body.dueDate with
        | error e => simp only [h4] at h; exact absurd h (by simp)
        | ok dd =>
          simp only [h4] at h
          cases h5 : parseCategoryIdField body.categoryId with
          | error e => simp only [h5] at h; exact absurd h (by simp)
          | ok c =>
            simp only [h5] at h
            injection h with h
            subst h
            exact ⟨rfl, rfl, rfl, rfl, rfl⟩

/-- C8 as amended: updateTask applies a partial update in which omitted fields
are unchanged and provided fields take the provided value, but a field
explicitly provided as null for description, dueDate or categoryId is rejected
by updateTaskSchema with a validation error (the fields are optional, not
nullable), so provided-as-null never clears anything: the update fails and the
task is unchanged.  Status and completedAt are never touched by updateTask. -/
theorem C8_partial_update (db : DB) (taskId houseId mId : String) (task : Task)
    (body : UpdateTaskBody) (now : Int)
    (htask : getTaskById db taskId houseId = .ok task)
    (hperm : canUserModifyTask db task mId = true) :
    ((body.description = JsonField.null ∨ body.dueDate = JsonField.null ∨
        body.categoryId = JsonField.null) →
      ∃ msg, updateTaskEndpoint db taskId houseId mId body now =
        .error (.validation msg)) ∧
    (∀ t2 db2, updateTaskEndpoint db taskId houseId mId body now = .ok (t2, db2) →
      (body.title = JsonField.absent → t2.title = task.title) ∧
      (body.description = JsonField.absent → t2.description = task.description) ∧
      (body.priority = JsonField.absent → t2.priority = task.priority) ∧
      (body.dueDate = JsonField.absent → t2.dueDate = task.dueDate) ∧
      (body.categoryId = JsonField.absent → t2.categoryId = task.categoryId) ∧
      (∀ d, body.description = JsonField.value d → t2.description = some d.trim) ∧
      (∀ p, body.priority = JsonField.value p → t2.priority = p) ∧
      (∀ dd, body.dueDate = JsonField.value dd → t2.dueDate = some dd) ∧
      (∀ c, body.categoryId = JsonField.value c → t2.categoryId = some c) ∧
      t2.status = task.status ∧
      t2.completedAt = task.completedAt) := by
  constructor
  · intro hnull
    have hperr : ∃ msg, parseUpdateTask body now = .error msg := by
      unfold parseUpdateTask
      cases h1 : parseTitleField body.title with
      | error e => exact ⟨e, rfl⟩
      | ok t =>
        rcases hnull with hd | hd | hd
        · rw [hd]
          exact ⟨"description: expected string, received null", rfl⟩
        · cases h2 : parseDescriptionField body.description with
          | error e => exact ⟨e, rfl⟩
          | ok d =>
            cases h3 : parsePriorityField body.priority with
            | error e => exact ⟨e, rfl⟩
            | ok p =>
              rw [hd]
              exact ⟨"dueDate: expected string, received null", rfl⟩
        · cases h2 : parseDescriptionField body.description with
          | error e => exact ⟨e, rfl⟩
          | ok d =>
            cases h3 : parsePriorityField body.priority with
            | error e => exact ⟨e, rfl⟩
            | ok p =>
              cases h4 : parseDueDateField now body.dueDate with
              | error e => exact ⟨e, rfl⟩
              | ok dd =>
                rw [hd]
                exact ⟨"categoryId: expected string, received null", rfl⟩
    obtain ⟨msg, hmsg⟩ := hperr
    exact ⟨msg, by simp [updateTaskEndpoint, hmsg]⟩
  · intro t2 db2 h
    unfold updateTaskEndpoint at h
    cases hp : parseUpdateTask body now with
    | error e => simp only [hp] at h; exact absurd h (by simp)
    | ok u =>
      simp only [hp] at h
      cases hup : updateTask db taskId houseId mId u with
      | error e => simp only [hup] at h; exact absurd h (by simp)
      | ok r =>
        simp only [hup] at h
        injection h with h
        subst h
        by_cases hcat : categoryScopeOk db u.categoryId houseId = false
        · simp [updateTask, htask, hperm, hcat] at hup
        · simp only [updateTask, htask, hperm, hcat, Bool.true_eq_false, if_false,
            Bool.false_eq_true, ite_false, Except.ok.injEq, Prod.mk.injEq] at hup
          obtain ⟨hupt, -⟩ := hup
          obtain ⟨ht, hd, hp2, hdd, hcid⟩ := parseUpdateTask_ok body now u hp
          refine ⟨?_, ?_, ?_, ?_, ?_, ?_, ?_, ?_, ?_, ?_, ?_⟩
          · intro habs
            rw [habs] at ht
            simp only [parseTitleField, Except.ok.injEq] at ht
            rw [← hupt]
            simp [applyTaskUpdate, ← ht]
          · intro habs
            rw [habs] at hd
            simp only [parseDescriptionField, Except.ok.injEq] at hd
            rw [← hupt]
            simp [applyTaskUpdate, ← hd]
          · intro habs
            rw [habs] at hp2
            simp only [parsePriorityField, Except.ok.injEq] at hp2
            rw [← hupt]
            simp [applyTaskUpdate, ← hp2]
          · intro habs
            rw [habs] at hdd
            simp only [parseDueDateField, Except.ok.injEq] at hdd
            rw [← hupt]
            simp [applyTaskUpdate, ← hdd]
          · intro habs
            rw [habs] at hcid
            simp only [parseCategoryIdField, Except.ok.injEq] at hcid
            rw [← hupt]
            simp [applyTaskUpdate, ← hcid]
          · intro d hdv
            rw [hdv] at hd
            simp only [parseDescriptionField] at hd
            split at hd
            · exact absurd hd (by simp)
            · injection hd with hd
              rw [← hupt]
              simp [applyTaskUpdate, ← hd]
          · intro p hpv
            rw [hpv] at hp2
            simp only [parsePriorityField, Except.ok.injEq] at hp2
            rw [← hupt]
            simp [applyTaskUpdate, ← hp2]
          · intro dd hdv
            rw [hdv] at hdd
            simp only [parseDueDateField] at hdd
            split at hdd
            · injection hdd with hdd
              rw [← hupt]
              simp [applyTaskUpdate, ← hdd]
            · exact absurd hdd (by simp)
          · intro c hcv
            rw [hcv] at hcid
            simp only [parseCategoryIdField, Except.ok.injEq] at hcid
            rw [← hupt]
            simp [applyTaskUpdate, ← hcid]
          · rw [← hupt]
            simp [applyTaskUpdate]
          · rw [← hupt]
            simp [applyTaskUpdate]

/-- Witness for C8 at the fixture store: the creator m1 provides only a
description value; the other fields stay as they were, and a null in any of the
clearable fields would have been rejected. -/
theorem C8_witness :
    (getTaskById db1 "t1" "h1" = .ok task1 ∧ canUserModifyTask db1 task1 "m1" = true) ∧
    (((({ title := JsonField.absent, description := JsonField.value " tidy up "
          priority := JsonField.absent, dueDate := JsonField.absent
          categoryId := JsonField.absent } : UpdateTaskBody).description = JsonField.null ∨
        ({ title := JsonField.absent, description := JsonField.value " tidy up "
           priority := JsonField.absent, dueDate := JsonField.absent
           categoryId := JsonField.absent } : UpdateTaskBody).dueDate = JsonField.null ∨
        ({ title := JsonField.absent, description := JsonField.value " tidy up "
           priority := JsonField.absent, dueDate := JsonField.absent
           categoryId := JsonField.absent } : UpdateTaskBody).categoryId = JsonField.null) →
      ∃ msg, updateTaskEndpoint db1 "t1" "h1" "m1"
        { title := JsonField.absent, description := JsonField.value " tidy up "
          priority := JsonField.absent, dueDate := JsonField.absent
          categoryId := JsonField.absent } 0 = .error (.validation msg)) ∧
    (∀ t2 db2, updateTaskEndpoint db1 "t1" "h1" "m1"
        { title := JsonField.absent, description := JsonField.value " tidy up "
          priority := JsonField.absent, dueDate := JsonField.absent
          categoryId := JsonField.absent } 0 = .ok (t2, db2) →
      ((JsonField.absent : JsonField String) = JsonField.absent → t2.title = task1.title) ∧
      (JsonField.value " tidy up " = JsonField.absent → t2.description = task1.description) ∧
      ((JsonField.absent : JsonField Priority) = JsonField.absent → t2.priority = task1.priority) ∧
      ((JsonField.absent : JsonField Int) = JsonField.absent → t2.dueDate = task1.dueDate) ∧
      ((JsonField.absent : JsonField String) = JsonField.absent → t2.categoryId = task1.categoryId) ∧
      (∀ d, JsonField.value " tidy up " = JsonField.value d →
        t2.description = some d.trim) ∧
      (∀ p, (JsonField.absent : JsonField Priority) = JsonField.value p → t2.priority = p) ∧
      (∀ dd, (JsonField.absent : JsonField Int) = JsonField.value dd → t2.dueDate = some dd) ∧
      (∀ c, (JsonField.absent : JsonField String) = JsonField.value c → t2.categoryId = some c) ∧
      t2.status = task1.status ∧
      t2.completedAt = task1.completedAt)) :=
  ⟨⟨by decide, by decide⟩,
    C8_partial_update db1 "t1" "h1" "m1" task1
      { title := JsonField.absent, description := JsonField.value " tidy up "
        priority := JsonField.absent, dueDate := JsonField.absent
        categoryId := JsonField.absent } 0 (by decide) (by decide)⟩

/-- C9: the schema's limit parameter defaults to 20 and is capped at 100, and
on a house of 45 tasks with no filters, page 2 with limit 20 returns exactly
the 21st through 40th tasks of the sorted order (createdAt descending here,
since priorities and due dates tie), with total 45 and pages = ceil(45 / 20)
= 3. -/
theorem C9_pagination :
    parseLimitParam none = 20 ∧
    parseLimitParam (some 500) = 100 ∧
    parseLimitParam (some 100) = 100 ∧
    parseLimitParam (some 7) = 7 ∧
    parsePageParam none = 1 ∧
    ∃ r, getHouseTasks db45 "h9" "u9" page2Filters 0 = .ok r ∧
      r.pagination.total = 45 ∧
      r.pagination.pages = 3 ∧
      r.pagination.page = 2 ∧
      r.pagination.limit = 20 ∧
      r.tasks.length = 20 ∧
      r.tasks = ((sortTasks (db45.tasks.filter
        (taskWhere db45 "h9"
          { id := "m9", userId := "u9", houseId := "h9"
            displayName := "Zoe", role := Role.OWNER } page2Filters 0))).drop 20).take 20 ∧
      r.tasks.map (fun t => t.id) =
        (List.range 20).map fun i => "task" ++ toString (24 - i) := by
  refine ⟨by decide, by decide, by decide, by decide, by decide, ?_⟩
  · refine ⟨_, rfl, ?_, ?_, ?_, ?_, ?_, ?_, ?_⟩
    · rfl
    · rfl
    · rfl
    · rfl
    · rfl
    · rfl
    · rfl

end MeHouse
